import Mathlib

/-!
# OpenRouter Terraform provider: client and API-key resource

A shallow embedding of `internal/client` (`client.go`, `models.go`) and of the
API-key resource and data sources of `internal/provider`, followed by the
properties of the reconciliation core.

Conventions of the embedding.

* A Go `error` is the text returned by its `Error()` method; every error of the
  client is built with `fmt.Errorf`, so the text is all there is.
* A Go pointer field (`*float64`, `*int`, `*string`, `*bool`, `*time.Time`) is an
  `Option`; `nil` is `none`.
* Go `float64` values are only stored, compared and serialized, never computed
  with; they are carried as rationals. Go `int` and `int64` are 64 bits wide and
  carried as `Int`; the conversions `int(...)` and `int64(...)` between them are
  the identity.
* The framework values `types.String`, `types.Float64`, `types.Int64`,
  `types.Bool` are `TfValue`: null, unknown, or known with a value.
* `req.Plan.Get` / `req.State.Get` hand over the typed model and `resp.State.Set`
  stores it; neither adds a diagnostic, since the model structs match the schema.
* The network and `encoding/json` decoding are outside the repository: the
  outcome of one HTTP exchange is an input (`Exchange`), and the decoders are the
  fields of `JsonLib`.
-/

namespace OpenRouter

/-! ## Framework values -/

/-- Go `float64`, carried as a rational. -/
abbrev Float64 := ℚ

/-- A value of the plugin framework (`types.String`, `types.Float64`, ...): its
state is null, unknown or known. -/
inductive TfValue (α : Type) where
  | null : TfValue α
  | unknown : TfValue α
  | known (v : α) : TfValue α
  deriving DecidableEq, Repr

namespace TfValue

variable {α : Type}

/-- `IsNull()`: the state is null. -/
def IsNull : TfValue α → Bool
  | null => true
  | _ => false

/-- `IsUnknown()`: the state is unknown. -/
def IsUnknown : TfValue α → Bool
  | unknown => true
  | _ => false

/-- `Equal(other)`: same state and, when known, same value. -/
def Equal [DecidableEq α] (a b : TfValue α) : Bool :=
  match a, b with
  | null, null => true
  | unknown, unknown => true
  | known x, known y => decide (x = y)
  | _, _ => false

/-- `ValueString()`, `ValueFloat64()`, `ValueInt64()`, `ValueBool()`: the known
value, and the zero value of the type when null or unknown. -/
def Value (zero : α) : TfValue α → α
  | known v => v
  | _ => zero

end TfValue

/-- `types.String`. -/
abbrev TfString := TfValue String
/-- `types.Float64`. -/
abbrev TfFloat64 := TfValue Float64
/-- `types.Int64`. -/
abbrev TfInt64 := TfValue Int
/-- `types.Bool`. -/
abbrev TfBool := TfValue Bool

/-- `ValueString()`. -/
def TfValue.ValueString (v : TfString) : String := v.Value ""
/-- `ValueFloat64()`. -/
def TfValue.ValueFloat64 (v : TfFloat64) : Float64 := v.Value 0
/-- `ValueInt64()`. -/
def TfValue.ValueInt64 (v : TfInt64) : Int := v.Value 0
/-- `ValueBool()`. -/
def TfValue.ValueBool (v : TfBool) : Bool := v.Value false

/-- One diagnostic added with `resp.Diagnostics.AddError(summary, detail)`. -/
structure Diagnostic where
  Summary : String
  Detail : String
  deriving DecidableEq, Repr

/-! ## JSON documents -/

/-- A JSON document as `json.Marshal` lays it out: an object is the list of its
members in the order they are written. -/
inductive Json where
  | bool (b : Bool) : Json
  | num (q : ℚ) : Json
  | str (s : String) : Json
  | obj (members : List (String × Json)) : Json

/-- The member names of a JSON object, in order; empty for any other document. -/
def Json.keys : Json → List String
  | Json.obj ms => ms.map Prod.fst
  | _ => []

/-- The value of the first member called `k` of a JSON object. -/
def Json.member (k : String) : Json → Option Json
  | Json.obj ms => (ms.find? fun m => m.1 == k).map Prod.snd
  | _ => none

/-- A struct field tagged `omitempty` whose Go type is a pointer: written iff the
pointer is not nil. -/
def omitemptyPtr {α : Type} (name : String) (enc : α → Json) : Option α → List (String × Json)
  | none => []
  | some v => [(name, enc v)]

/-! ## `internal/client/models.go` -/

/-- A `time.Time` by its calendar fields. -/
structure Time where
  year : Nat
  month : Nat
  day : Nat
  hour : Nat
  minute : Nat
  second : Nat
  deriving DecidableEq, Repr

/-- `ApiKeyInfo`. -/
structure ApiKeyInfo where
  ID : String
  Key : String
  Label : String
  Name : String
  IsProvisioner : Bool
  CreatedAt : Option Time
  UpdatedAt : Option Time
  Limit : Option Float64
  LimitMinutes : Option Int
  Usage : Float64
  IsDisabled : Bool
  deriving DecidableEq, Repr

/-- The zero value of `ApiKeyInfo`. -/
def ApiKeyInfo.zero : ApiKeyInfo :=
  { ID := "", Key := "", Label := "", Name := "", IsProvisioner := false,
    CreatedAt := none, UpdatedAt := none, Limit := none, LimitMinutes := none,
    Usage := 0, IsDisabled := false }

/-- `ListApiKeysRequest`. -/
structure ListApiKeysRequest where
  IncludeDisabled : Bool
  Offset : Int
  Limit : Int
  deriving DecidableEq, Repr

/-- `ListApiKeysResponse`. -/
structure ListApiKeysResponse where
  Data : List ApiKeyInfo
  deriving DecidableEq, Repr

/-- `CreateApiKeyRequest`. -/
structure CreateApiKeyRequest where
  Name : String
  Limit : Option Float64
  LimitMinutes : Option Int
  deriving DecidableEq, Repr

/-- `CreateApiKeyResponse`. -/
structure CreateApiKeyResponse where
  Data : ApiKeyInfo
  Key : String
  deriving DecidableEq, Repr

/-- `GetApiKeyResponse`. -/
structure GetApiKeyResponse where
  Data : ApiKeyInfo
  deriving DecidableEq, Repr

/-- `BYOKConfig`. -/
structure BYOKConfig where
  Provider : String
  APIKey : String
  BaseURL : Option String
  deriving DecidableEq, Repr

/-- `UpdateApiKeyRequest`. -/
structure UpdateApiKeyRequest where
  Name : Option String
  Limit : Option Float64
  IsDisabled : Option Bool
  BYOK : Option BYOKConfig
  deriving DecidableEq, Repr

/-- `UpdateApiKeyResponse`. -/
structure UpdateApiKeyResponse where
  Data : ApiKeyInfo
  deriving DecidableEq, Repr

/-- `ErrorResponse`. -/
structure ErrorResponse where
  Message : String
  Error : String
  deriving DecidableEq, Repr

/-- `json.Marshal` of a `BYOKConfig`, by its struct tags. -/
def BYOKConfig.marshal (c : BYOKConfig) : Json :=
  Json.obj ([("provider", Json.str c.Provider), ("api_key", Json.str c.APIKey)]
    ++ omitemptyPtr "base_url" Json.str c.BaseURL)

/-- `json.Marshal` of a `CreateApiKeyRequest`, by its struct tags: `name` always,
`limit` and `limit_minutes` with `omitempty`. -/
def CreateApiKeyRequest.marshal (r : CreateApiKeyRequest) : Json :=
  Json.obj ([("name", Json.str r.Name)]
    ++ omitemptyPtr "limit" Json.num r.Limit
    ++ omitemptyPtr "limit_minutes" (fun (i : Int) => Json.num i) r.LimitMinutes)

/-- `json.Marshal` of an `UpdateApiKeyRequest`, by its struct tags: every field
has `omitempty`. -/
def UpdateApiKeyRequest.marshal (r : UpdateApiKeyRequest) : Json :=
  Json.obj (omitemptyPtr "name" Json.str r.Name
    ++ omitemptyPtr "limit" Json.num r.Limit
    ++ omitemptyPtr "disabled" Json.bool r.IsDisabled
    ++ omitemptyPtr "byok" BYOKConfig.marshal r.BYOK)

/-! ## Go library functions used by the client -/

/-- The text of a Go `error`. -/
abbrev GoError := String

/-- Whether `sub` occurs in `l` as a block of consecutive characters. -/
def hasInfix : List Char → List Char → Bool
  | [], sub => sub.isEmpty
  | c :: cs, sub => sub.isPrefixOf (c :: cs) || hasInfix cs sub

/-- `strings.Contains(s, substr)`. -/
def stringsContains (s substr : String) : Bool := hasInfix s.data substr.data

/-- `fmt.Sprintf("%d", n)`: the decimal digits of `n`, after a minus sign when
`n` is negative. -/
def sprintfD : Int → String
  | Int.ofNat m => ⟨Nat.toDigits 10 m⟩
  | Int.negSucc m => ⟨'-' :: Nat.toDigits 10 (m + 1)⟩

/-- `url.Values`, restricted to what the client uses: a map from a key to its
values, kept here as a list with one entry per key. -/
abbrev Values := List (String × List String)

/-- `v.Set(key, value)`: the key now has exactly this one value. -/
def Values.Set (v : Values) (key value : String) : Values :=
  (v.filter fun e => e.1 != key) ++ [(key, [value])]

/-- `v.Get(key)`: the first value of the key, or the empty string. -/
def Values.Get (v : Values) (key : String) : String :=
  match v.find? fun e => e.1 == key with
  | some (_, x :: _) => x
  | _ => ""

/-- The characters `url.QueryEscape` leaves as they are: letters, digits and
`-`, `_`, `.`, `~` (`shouldEscape` in mode `encodeQueryComponent`). -/
def shouldEscape (c : Char) : Bool :=
  !(c.isAlphanum || c == '-' || c == '_' || c == '.' || c == '~')

/-- The digit of `n < 16` in `"0123456789ABCDEF"`. -/
def upperhex (n : Nat) : Char := "0123456789ABCDEF".data.getD n '0'

/-- One character under `url.QueryEscape`: kept, or `+` for a space, or `%XX` for
each byte of its UTF-8 encoding. -/
def escapeChar (c : Char) : List Char :=
  if shouldEscape c then
    if c == ' ' then ['+']
    else (String.utf8EncodeChar c).flatMap fun b => ['%', upperhex (b.toNat / 16), upperhex (b.toNat % 16)]
  else [c]

/-- `url.QueryEscape(s)`. -/
def QueryEscape (s : String) : String := ⟨s.data.flatMap escapeChar⟩

/-- The order of Go strings: byte by byte, which on UTF-8 text is character by
character, a proper prefix coming first. -/
def ltChars : List Char → List Char → Bool
  | _, [] => false
  | [], _ :: _ => true
  | a :: as, b :: bs => decide (a.toNat < b.toNat) || (decide (a.toNat = b.toNat) && ltChars as bs)

/-- Insertion of a key into a sorted list of keys. -/
def insertKey (k : String) : List String → List String
  | [] => [k]
  | x :: xs => if ltChars k.data x.data then k :: x :: xs else x :: insertKey k xs

/-- `slices.Sort(keys)`. -/
def sortKeys : List String → List String
  | [] => []
  | k :: ks => insertKey k (sortKeys ks)

/-- All values stored under `k`. -/
def Values.lookupAll (v : Values) (k : String) : List String :=
  match v.find? fun e => e.1 == k with
  | some (_, vs) => vs
  | none => []

/-- `v.Encode()`: for the keys in sorted order and each of their values,
`key=value` with both sides escaped, joined by `&`. -/
def Values.Encode (v : Values) : String :=
  "&".intercalate ((sortKeys (v.map Prod.fst)).flatMap fun k =>
    (v.lookupAll k).map fun x => QueryEscape k ++ "=" ++ QueryEscape x)

/-! ## `internal/client/client.go` -/

/-- `defaultBaseURL`. -/
def defaultBaseURL : String := "https://openrouter.ai/api/v1"

/-- `Client`: the base URL and the credential (the `http.Client` only holds the
30 second timeout). -/
structure Client where
  baseURL : String
  apiKey : String
  deriving DecidableEq, Repr

/-- `NewClient(apiKey, baseURL)`. -/
def NewClient (apiKey : String) (baseURL : Option String) : Client :=
  let url := match baseURL with
    | some b => if b != "" then b else defaultBaseURL
    | none => defaultBaseURL
  { baseURL := url, apiKey := apiKey }

/-- The request `doRequest` assembles: method, URL, the two headers it sets, and
the serialized body when there is one. -/
structure Request where
  Method : String
  URL : String
  Authorization : String
  ContentType : String
  Body : Option Json

/-- What happens to one request of `doRequest`: `http.NewRequestWithContext`
rejects it, `httpClient.Do` fails, `io.ReadAll` fails, or a response with a
status code and a body is read. -/
inductive Exchange where
  | newRequestFailed (err : GoError) : Exchange
  | doFailed (err : GoError) : Exchange
  | readFailed (err : GoError) : Exchange
  | response (StatusCode : Int) (respBody : String) : Exchange
  deriving DecidableEq, Repr

/-- The world outside the process, as far as one call sees it: the exchange each
request ends in. -/
abbrev Remote := Request → Exchange

/-- `json.Unmarshal(data, &v)` for each type the client decodes into a fresh
zero value: the decoded value, or the error of the decoder. -/
structure JsonLib where
  unmarshalError : String → Except GoError ErrorResponse
  unmarshalGet : String → Except GoError GetApiKeyResponse
  unmarshalList : String → Except GoError ListApiKeysResponse
  unmarshalCreate : String → Except GoError CreateApiKeyResponse
  unmarshalUpdate : String → Except GoError UpdateApiKeyResponse

/-- `Client.doRequest`. `body` is the `json.Marshal` of the Go `body` (`none` for
nil); `unmarshalErr` and `unmarshal` are `json.Unmarshal` into an `ErrorResponse`
and into the caller's `result`; `result` is `none` for a nil `result` and
otherwise holds the value the caller passed in. The value returned on success is
what `result` holds afterwards. -/
def Client.doRequest {α : Type} (c : Client) (remote : Remote)
    (unmarshalErr : String → Except GoError ErrorResponse)
    (unmarshal : String → Except GoError α)
    (method path : String) (body : Option Json) (result : Option α) :
    Except GoError (Option α) :=
  let req : Request :=
    { Method := method, URL := c.baseURL ++ path,
      Authorization := "Bearer " ++ c.apiKey, ContentType := "application/json",
      Body := body }
  match remote req with
  | Exchange.newRequestFailed err => Except.error ("failed to create request: " ++ err)
  | Exchange.doFailed err => Except.error ("request failed: " ++ err)
  | Exchange.readFailed err => Except.error ("failed to read response body: " ++ err)
  | Exchange.response StatusCode respBody =>
    if StatusCode ≥ 400 then
      match unmarshalErr respBody with
      | Except.error _ =>
        Except.error ("API error (status " ++ sprintfD StatusCode ++ "): " ++ respBody)
      | Except.ok errResp =>
        Except.error ("API error (status " ++ sprintfD StatusCode ++ "): " ++ errResp.Message)
    else
      match result with
      | some r =>
        if respBody.utf8ByteSize > 0 then
          match unmarshal respBody with
          | Except.error err => Except.error ("failed to unmarshal response: " ++ err)
          | Except.ok v => Except.ok (some v)
        else Except.ok (some r)
      | none => Except.ok none

/-- The query parameters `ListApiKeys` collects in `v`. -/
def listApiKeysValues (params : ListApiKeysRequest) : Values :=
  let v : Values := []
  let v := if params.IncludeDisabled then v.Set "include_disabled" "true" else v
  let v := if params.Offset > 0 then v.Set "offset" (sprintfD params.Offset) else v
  let v := if params.Limit > 0 then v.Set "limit" (sprintfD params.Limit) else v
  v

/-- The `path` that `ListApiKeys` hands to `doRequest`. -/
def listApiKeysPath : Option ListApiKeysRequest → String
  | none => "/keys"
  | some params =>
    let v := listApiKeysValues params
    if v.length > 0 then "/keys" ++ "?" ++ v.Encode else "/keys"

/-- The value a caller reads out of its `resp` variable after `doRequest`. -/
def resultOr {α : Type} (zero : α) : Option α → α
  | some v => v
  | none => zero

/-- `Client.GetCurrentApiKey`. -/
def Client.GetCurrentApiKey (c : Client) (remote : Remote) (J : JsonLib) :
    Except GoError ApiKeyInfo :=
  let zero : GetApiKeyResponse := { Data := ApiKeyInfo.zero }
  match c.doRequest remote J.unmarshalError J.unmarshalGet "GET" "/key" none (some zero) with
  | Except.error err => Except.error err
  | Except.ok resp => Except.ok (resultOr zero resp).Data

/-- `Client.ListApiKeys`. -/
def Client.ListApiKeys (c : Client) (remote : Remote) (J : JsonLib)
    (params : Option ListApiKeysRequest) : Except GoError (List ApiKeyInfo) :=
  let zero : ListApiKeysResponse := { Data := [] }
  match c.doRequest remote J.unmarshalError J.unmarshalList "GET" (listApiKeysPath params)
      none (some zero) with
  | Except.error err => Except.error err
  | Except.ok resp => Except.ok (resultOr zero resp).Data

/-- `Client.CreateApiKey`: it returns `&resp.Data`. -/
def Client.CreateApiKey (c : Client) (remote : Remote) (J : JsonLib)
    (req : CreateApiKeyRequest) : Except GoError ApiKeyInfo :=
  let zero : CreateApiKeyResponse := { Data := ApiKeyInfo.zero, Key := "" }
  match c.doRequest remote J.unmarshalError J.unmarshalCreate "POST" "/keys"
      (some req.marshal) (some zero) with
  | Except.error err => Except.error err
  | Except.ok resp => Except.ok (resultOr zero resp).Data

/-- `Client.GetApiKey`. -/
def Client.GetApiKey (c : Client) (remote : Remote) (J : JsonLib) (hash : String) :
    Except GoError ApiKeyInfo :=
  let zero : GetApiKeyResponse := { Data := ApiKeyInfo.zero }
  match c.doRequest remote J.unmarshalError J.unmarshalGet "GET" ("/keys/" ++ hash)
      none (some zero) with
  | Except.error err => Except.error err
  | Except.ok resp => Except.ok (resultOr zero resp).Data

/-- `Client.UpdateApiKey`. -/
def Client.UpdateApiKey (c : Client) (remote : Remote) (J : JsonLib) (hash : String)
    (req : UpdateApiKeyRequest) : Except GoError ApiKeyInfo :=
  let zero : UpdateApiKeyResponse := { Data := ApiKeyInfo.zero }
  match c.doRequest remote J.unmarshalError J.unmarshalUpdate "PATCH" ("/keys/" ++ hash)
      (some req.marshal) (some zero) with
  | Except.error err => Except.error err
  | Except.ok resp => Except.ok (resultOr zero resp).Data

/-- `Client.DeleteApiKey`: no body is sent and no result is decoded. -/
def Client.DeleteApiKey (c : Client) (remote : Remote) (J : JsonLib) (hash : String) :
    Except GoError Unit :=
  match c.doRequest remote J.unmarshalError J.unmarshalGet "DELETE" ("/keys/" ++ hash)
      none none with
  | Except.error err => Except.error err
  | Except.ok _ => Except.ok ()

/-- What the spec says of the query of `list`: `include_disabled=true` when
disabled keys are asked for, then `limit` and `offset` in decimal when they are
positive. -/
def specListQuery (p : ListApiKeysRequest) : List String :=
  (if p.IncludeDisabled then ["include_disabled=true"] else [])
    ++ (if p.Limit > 0 then ["limit=" ++ sprintfD p.Limit] else [])
    ++ (if p.Offset > 0 then ["offset=" ++ sprintfD p.Offset] else [])

/-- What the spec says of the path of `list`: `/keys`, followed by `?` and the
parameters joined by `&` when there is any. -/
def specListPath : Option ListApiKeysRequest → String
  | none => "/keys"
  | some p =>
    match specListQuery p with
    | [] => "/keys"
    | q :: qs => "/keys?" ++ "&".intercalate (q :: qs)

/-! ## `internal/provider/api_key_resource.go` -/

/-- A number in decimal, padded with zeros on the left to `width` digits. -/
def zeroPad (width n : Nat) : String :=
  let d := Nat.toDigits 10 n
  ⟨List.replicate (width - d.length) '0' ++ d⟩

/-- `t.Format("2006-01-02T15:04:05Z")`: the calendar fields of `t` followed by a
literal `Z`. -/
def Time.Format (t : Time) : String :=
  zeroPad 4 t.year ++ "-" ++ zeroPad 2 t.month ++ "-" ++ zeroPad 2 t.day ++ "T"
    ++ zeroPad 2 t.hour ++ ":" ++ zeroPad 2 t.minute ++ ":" ++ zeroPad 2 t.second ++ "Z"

/-- `ApiKeyResourceModel`. -/
structure ApiKeyResourceModel where
  ID : TfString
  Key : TfString
  Name : TfString
  Limit : TfFloat64
  LimitMinutes : TfInt64
  IsDisabled : TfBool
  Usage : TfFloat64
  CreatedAt : TfString
  deriving DecidableEq, Repr

/-- What a resource method leaves in its response: `State` (`none` once
`RemoveResource` was called, or when nothing was ever stored) and the
diagnostics. -/
structure ResourceResponse where
  State : Option ApiKeyResourceModel
  Diagnostics : List Diagnostic
  deriving DecidableEq, Repr

/-- `resp.Diagnostics.HasError()`: every diagnostic of this provider is an error. -/
def ResourceResponse.HasError (r : ResourceResponse) : Bool := !r.Diagnostics.isEmpty

/-- The `createReq` that `ApiKeyResource.Create` builds from the plan. -/
def ApiKeyResource.createReq (data : ApiKeyResourceModel) : CreateApiKeyRequest :=
  let createReq : CreateApiKeyRequest :=
    { Name := data.Name.ValueString, Limit := none, LimitMinutes := none }
  let createReq :=
    if !data.Limit.IsNull then { createReq with Limit := some data.Limit.ValueFloat64 }
    else createReq
  let createReq :=
    if !data.LimitMinutes.IsNull then
      { createReq with LimitMinutes := some data.LimitMinutes.ValueInt64 }
    else createReq
  createReq

/-- `ApiKeyResource.Create` with `data` the plan. The response state of a create
starts empty. The source reads the client's result as `apiKey.Data.ID`,
`apiKey.Key`, `apiKey.Data.Usage`, ...; the value `CreateApiKey` returns is the
record `resp.Data` itself, so `apiKey.Data` is that record and `apiKey.Key` is
its `Key` field. -/
def ApiKeyResource.Create (c : Client) (remote : Remote) (J : JsonLib)
    (data : ApiKeyResourceModel) : ResourceResponse :=
  match c.CreateApiKey remote J (ApiKeyResource.createReq data) with
  | Except.error err =>
    { State := none,
      Diagnostics := [⟨"Client Error", "Unable to create API key, got error: " ++ err⟩] }
  | Except.ok apiKey =>
    let data := { data with
      ID := TfValue.known apiKey.ID
      Key := TfValue.known apiKey.Key
      Usage := TfValue.known apiKey.Usage
      IsDisabled := TfValue.known apiKey.IsDisabled }
    let data := match apiKey.CreatedAt with
      | some t => { data with CreatedAt := TfValue.known t.Format }
      | none => data
    { State := some data, Diagnostics := [] }

/-- `ApiKeyResource.Read` with `data` the prior state. The response state of a
read starts as the prior state. -/
def ApiKeyResource.Read (c : Client) (remote : Remote) (J : JsonLib)
    (data : ApiKeyResourceModel) : ResourceResponse :=
  match c.GetApiKey remote J data.ID.ValueString with
  | Except.error err =>
    if stringsContains err "404" then
      { State := none, Diagnostics := [] }
    else
      { State := some data,
        Diagnostics := [⟨"Client Error", "Unable to read API key, got error: " ++ err⟩] }
  | Except.ok apiKey =>
    let prior := data
    let data := { prior with
      Name := TfValue.known apiKey.Name
      Usage := TfValue.known apiKey.Usage
      IsDisabled := TfValue.known apiKey.IsDisabled }
    let data := match apiKey.Limit with
      | some l => { data with Limit := TfValue.known l }
      | none => { data with Limit := TfValue.null }
    let data := match apiKey.LimitMinutes with
      | some m => { data with LimitMinutes := TfValue.known m }
      | none => { data with LimitMinutes := TfValue.null }
    let data := match apiKey.CreatedAt with
      | some t => { data with CreatedAt := TfValue.known t.Format }
      | none => data
    { State := some data, Diagnostics := [] }

/-- The `updateReq` that `ApiKeyResource.Update` builds from the plan `data` and
the prior `state`. -/
def ApiKeyResource.updateReq (data state : ApiKeyResourceModel) : UpdateApiKeyRequest :=
  let updateReq : UpdateApiKeyRequest :=
    { Name := none, Limit := none, IsDisabled := none, BYOK := none }
  let updateReq :=
    if !data.Name.Equal state.Name then { updateReq with Name := some data.Name.ValueString }
    else updateReq
  let updateReq :=
    if !data.Limit.Equal state.Limit then
      if !data.Limit.IsNull then { updateReq with Limit := some data.Limit.ValueFloat64 }
      else { updateReq with Limit := some 0 }
    else updateReq
  let updateReq :=
    if !data.IsDisabled.Equal state.IsDisabled then
      { updateReq with IsDisabled := some data.IsDisabled.ValueBool }
    else updateReq
  updateReq

/-- `ApiKeyResource.Update` with `data` the plan and `state` the prior state. The
response state of an update starts as the prior state. -/
def ApiKeyResource.Update (c : Client) (remote : Remote) (J : JsonLib)
    (data state : ApiKeyResourceModel) : ResourceResponse :=
  match c.UpdateApiKey remote J data.ID.ValueString (ApiKeyResource.updateReq data state) with
  | Except.error err =>
    { State := some state,
      Diagnostics := [⟨"Client Error", "Unable to update API key, got error: " ++ err⟩] }
  | Except.ok apiKey =>
    { State := some { data with Usage := TfValue.known apiKey.Usage }, Diagnostics := [] }

/-- `ApiKeyResource.Delete` with `data` the prior state. The framework removes the
state after a delete that reports no error. -/
def ApiKeyResource.Delete (c : Client) (remote : Remote) (J : JsonLib)
    (data : ApiKeyResourceModel) : ResourceResponse :=
  match c.DeleteApiKey remote J data.ID.ValueString with
  | Except.error err =>
    { State := some data,
      Diagnostics := [⟨"Client Error", "Unable to delete API key, got error: " ++ err⟩] }
  | Except.ok _ => { State := none, Diagnostics := [] }

/-! ## `internal/provider/api_keys_data_source.go` -/

/-- `ApiKeyModel`. -/
structure ApiKeyModel where
  ID : TfString
  Name : TfString
  IsProvisioner : TfBool
  Limit : TfFloat64
  LimitMinutes : TfInt64
  Usage : TfFloat64
  IsDisabled : TfBool
  CreatedAt : TfString
  deriving DecidableEq, Repr

/-- The zero value of `ApiKeyModel`, as `make` fills a slice with it: the zero
value of a framework value is null. -/
def ApiKeyModel.zero : ApiKeyModel :=
  { ID := TfValue.null, Name := TfValue.null, IsProvisioner := TfValue.null,
    Limit := TfValue.null, LimitMinutes := TfValue.null, Usage := TfValue.null,
    IsDisabled := TfValue.null, CreatedAt := TfValue.null }

/-- `ApiKeysDataSourceModel`. -/
structure ApiKeysDataSourceModel where
  IncludeDisabled : TfBool
  Keys : List ApiKeyModel
  deriving DecidableEq, Repr

/-- What `ApiKeysDataSource.Read` leaves in its response: the state (`none` while
nothing is stored) and the diagnostics. -/
structure DataSourceResponse where
  State : Option ApiKeysDataSourceModel
  Diagnostics : List Diagnostic
  deriving DecidableEq, Repr

/-- The body of the loop of `ApiKeysDataSource.Read`: the `key` built from one
`apiKey`. -/
def ApiKeysDataSource.keyOf (apiKey : ApiKeyInfo) : ApiKeyModel :=
  let key : ApiKeyModel :=
    { ApiKeyModel.zero with
      ID := TfValue.known apiKey.ID
      Name := TfValue.known apiKey.Name
      IsProvisioner := TfValue.known apiKey.IsProvisioner
      Usage := TfValue.known apiKey.Usage
      IsDisabled := TfValue.known apiKey.IsDisabled }
  let key := match apiKey.Limit with
    | some l => { key with Limit := TfValue.known l }
    | none => { key with Limit := TfValue.null }
  let key := match apiKey.LimitMinutes with
    | some m => { key with LimitMinutes := TfValue.known m }
    | none => { key with LimitMinutes := TfValue.null }
  let key := match apiKey.CreatedAt with
    | some t => { key with CreatedAt := TfValue.known t.Format }
    | none => { key with CreatedAt := TfValue.null }
  key

/-- The loop of `ApiKeysDataSource.Read`: `data.Keys` is made with the length of
`apiKeys`, and for each index `i` and element `apiKey` of `apiKeys`, in order,
`data.Keys[i]` is set to the key built from `apiKey`. -/
def ApiKeysDataSource.fillKeys (apiKeys : List ApiKeyInfo) : List ApiKeyModel :=
  apiKeys.enum.foldl (fun keys p => keys.set p.1 (ApiKeysDataSource.keyOf p.2))
    (List.replicate apiKeys.length ApiKeyModel.zero)

/-- `ApiKeysDataSource.Read` with `data` the configuration. -/
def ApiKeysDataSource.Read (c : Client) (remote : Remote) (J : JsonLib)
    (data : ApiKeysDataSourceModel) : DataSourceResponse :=
  let params : ListApiKeysRequest :=
    { IncludeDisabled := data.IncludeDisabled.ValueBool, Offset := 0, Limit := 0 }
  match c.ListApiKeys remote J (some params) with
  | Except.error err =>
    { State := none,
      Diagnostics := [⟨"Client Error", "Unable to read API keys, got error: " ++ err⟩] }
  | Except.ok apiKeys =>
    { State := some { data with Keys := ApiKeysDataSource.fillKeys apiKeys },
      Diagnostics := [] }

/-- What the spec says of one element of the page: the record's fields as known
values, and `limit`, `limit_minutes`, `created_at` null when the record has none. -/
def specKeyOf (r : ApiKeyInfo) : ApiKeyModel :=
  { ID := TfValue.known r.ID, Name := TfValue.known r.Name,
    IsProvisioner := TfValue.known r.IsProvisioner,
    Limit := match r.Limit with
      | some l => TfValue.known l
      | none => TfValue.null,
    LimitMinutes := match r.LimitMinutes with
      | some m => TfValue.known m
      | none => TfValue.null,
    Usage := TfValue.known r.Usage, IsDisabled := TfValue.known r.IsDisabled,
    CreatedAt := match r.CreatedAt with
      | some t => TfValue.known t.Format
      | none => TfValue.null }

/-! ## `internal/provider/provider.go` -/

/-- `OpenRouterProviderModel`. -/
structure OpenRouterProviderModel where
  ApiKey : TfString
  Endpoint : TfString
  deriving DecidableEq, Repr

/-- What `OpenRouterProvider.Configure` leaves in its response: the diagnostics
(`AddAttributeError` on the attribute `api_key`, kept by summary and detail) and
the client handed to data sources and to resources, `none` while unset. -/
structure ConfigureResponse where
  Diagnostics : List Diagnostic
  DataSourceData : Option Client
  ResourceData : Option Client
  deriving DecidableEq, Repr

/-- The diagnostic of `Configure` for an unknown `api_key`. -/
def unknownApiKeyError : Diagnostic :=
  ⟨"Unknown OpenRouter API Key",
   "The provider cannot create the OpenRouter client as there is an unknown configuration value for the OpenRouter API key. "
     ++ "Either target apply the source of the value first, set the value statically in the configuration, or use the OPENROUTER_API_KEY environment variable."⟩

/-- The diagnostic of `Configure` for an empty credential. -/
def missingApiKeyError : Diagnostic :=
  ⟨"Missing OpenRouter API Key",
   "The provider cannot create the OpenRouter client as there is a missing or empty value for the OpenRouter API key. "
     ++ "Set the api_key value in the configuration or use the OPENROUTER_API_KEY environment variable. "
     ++ "If either is already set, ensure the value is not empty."⟩

/-- The credential `Configure` settles on: `os.Getenv("OPENROUTER_API_KEY")`,
replaced by the configured `api_key` when that is not null. -/
def OpenRouterProvider.resolveApiKey (config : OpenRouterProviderModel)
    (getenv : String → String) : String :=
  let apiKey := getenv "OPENROUTER_API_KEY"
  if !config.ApiKey.IsNull then config.ApiKey.ValueString else apiKey

/-- The endpoint `Configure` settles on: the default, replaced by the configured
`endpoint` when that is not null. -/
def OpenRouterProvider.resolveEndpoint (config : OpenRouterProviderModel) : String :=
  let endpoint := "https://openrouter.ai/api/v1"
  if !config.Endpoint.IsNull then config.Endpoint.ValueString else endpoint

/-- `OpenRouterProvider.Configure` with `config` the provider configuration and
`getenv` the environment (`os.Getenv`). -/
def OpenRouterProvider.Configure (config : OpenRouterProviderModel)
    (getenv : String → String) : ConfigureResponse :=
  let diags : List Diagnostic := []
  let diags := if config.ApiKey.IsUnknown then diags ++ [unknownApiKeyError] else diags
  if !diags.isEmpty then
    { Diagnostics := diags, DataSourceData := none, ResourceData := none }
  else
    let apiKey := OpenRouterProvider.resolveApiKey config getenv
    let endpoint := OpenRouterProvider.resolveEndpoint config
    let diags := if apiKey == "" then diags ++ [missingApiKeyError] else diags
    if !diags.isEmpty then
      { Diagnostics := diags, DataSourceData := none, ResourceData := none }
    else
      let client := NewClient apiKey (some endpoint)
      { Diagnostics := diags, DataSourceData := some client, ResourceData := some client }

/-! ## Sample data -/

/-- A create response: the new record under `data` and the secret under `key`. -/
def sampleCreateBody : String :=
  "\x7b\"data\":\x7b\"hash\":\"k9\",\"name\":\"ci\",\"usage\":0,\"disabled\":false\x7d,\"key\":\"sk-or-v1-new\"\x7d"

/-- An update response: the record under `data`, with a usage of 3. -/
def sampleUpdateBody : String :=
  "\x7b\"data\":\x7b\"hash\":\"k1\",\"name\":\"ci-renamed\",\"usage\":3,\"disabled\":false\x7d\x7d"

/-- The decoders of `encoding/json` on the response bodies used in the examples
below; every other body is taken as malformed. -/
def sampleJson : JsonLib where
  unmarshalError body :=
    if body = "\x7b\"message\":\"key not found\"\x7d" then Except.ok ⟨"key not found", ""⟩
    else if body = "\x7b\"message\":\"backend returned 404\"\x7d" then
      Except.ok ⟨"backend returned 404", ""⟩
    else Except.error "invalid character"
  unmarshalGet _ := Except.error "invalid character"
  unmarshalList _ := Except.error "invalid character"
  unmarshalCreate body :=
    if body = sampleCreateBody then
      Except.ok { Data := { ApiKeyInfo.zero with ID := "k9", Name := "ci" },
                  Key := "sk-or-v1-new" }
    else Except.error "invalid character"
  unmarshalUpdate body :=
    if body = sampleUpdateBody then
      Except.ok { Data := { ApiKeyInfo.zero with ID := "k1", Name := "ci-renamed", Usage := 3 } }
    else Except.error "invalid character"

/-- A client on the default endpoint. -/
def sampleClient : Client := NewClient "sk-or-v1-provisioning" none

/-- A stored API key with a limit of 10. -/
def samplePrior : ApiKeyResourceModel :=
  { ID := TfValue.known "k1", Key := TfValue.known "sk-or-v1-secret",
    Name := TfValue.known "ci", Limit := TfValue.known 10, LimitMinutes := TfValue.null,
    IsDisabled := TfValue.known false, Usage := TfValue.known 0,
    CreatedAt := TfValue.known "2024-05-01T10:00:00Z" }

/-- The plan that drops the limit of `samplePrior`. -/
def samplePlanNoLimit : ApiKeyResourceModel := { samplePrior with Limit := TfValue.null }

/-- A remote that answers every request with status 404. -/
def sampleRemote404 : Remote :=
  fun _ => Exchange.response 404 "\x7b\"message\":\"key not found\"\x7d"

/-- A remote that answers every request with status 500 and an error envelope
whose message mentions the number 404. -/
def sampleRemote500 : Remote :=
  fun _ => Exchange.response 500 "\x7b\"message\":\"backend returned 404\"\x7d"

/-- A remote that answers every request with status 200 and `sampleCreateBody`. -/
def sampleRemoteCreated : Remote := fun _ => Exchange.response 200 sampleCreateBody

/-- A remote that answers every request with status 200 and `sampleUpdateBody`. -/
def sampleRemoteUpdated : Remote := fun _ => Exchange.response 200 sampleUpdateBody

/-- The plan of a new key called `ci` with a limit of 5: the computed attributes
are unknown. -/
def samplePlanNew : ApiKeyResourceModel :=
  { ID := TfValue.unknown, Key := TfValue.unknown, Name := TfValue.known "ci",
    Limit := TfValue.known 5, LimitMinutes := TfValue.null,
    IsDisabled := TfValue.known false, Usage := TfValue.unknown,
    CreatedAt := TfValue.unknown }

/-- The plan that renames `samplePrior`. -/
def samplePlanRenamed : ApiKeyResourceModel :=
  { samplePrior with Name := TfValue.known "ci-renamed", Usage := TfValue.unknown }

/-- The plan that changes only the time window of `samplePrior`, to 60 minutes. -/
def samplePlanMinutes : ApiKeyResourceModel :=
  { samplePrior with LimitMinutes := TfValue.known 60 }

/-- A list response with two records: `k1` with a limit and a creation time, `k2`
disabled, with a time window and no creation time. -/
def sampleListBody : String :=
  "\x7b\"data\":[\x7b\"hash\":\"k1\",\"name\":\"ci\",\"created_at\":\"2024-05-01T10:00:00Z\",\"limit\":10,\"usage\":2,\"disabled\":false\x7d,\x7b\"hash\":\"k2\",\"name\":\"ops\",\"is_provisioner\":true,\"created_at\":null,\"limit_minutes\":30,\"usage\":0,\"disabled\":true\x7d]\x7d"

/-- A get response: the record `k1`, renamed and disabled, with a limit of 25. -/
def sampleGetBody : String :=
  "\x7b\"data\":\x7b\"hash\":\"k1\",\"name\":\"ci-prod\",\"created_at\":null,\"limit\":25,\"usage\":4,\"disabled\":true\x7d\x7d"

/-- The records `sampleListBody` decodes to. -/
def samplePage : List ApiKeyInfo :=
  [ { ApiKeyInfo.zero with
      ID := "k1", Name := "ci", CreatedAt := some ⟨2024, 5, 1, 10, 0, 0⟩,
      Limit := some 10, Usage := 2 },
    { ApiKeyInfo.zero with
      ID := "k2", Name := "ops", IsProvisioner := true, LimitMinutes := some 30,
      IsDisabled := true } ]

/-- The record `sampleGetBody` decodes to. -/
def sampleRecord : ApiKeyInfo :=
  { ApiKeyInfo.zero with
    ID := "k1", Name := "ci-prod", Limit := some 25, Usage := 4, IsDisabled := true }

/-- The decoders of `sampleJson`, and those of get and list responses on
`sampleGetBody` and `sampleListBody`. -/
def sampleJsonRead : JsonLib :=
  { sampleJson with
    unmarshalGet := fun body =>
      if body = sampleGetBody then Except.ok { Data := sampleRecord }
      else Except.error "invalid character"
    unmarshalList := fun body =>
      if body = sampleListBody then Except.ok { Data := samplePage }
      else Except.error "invalid character" }

/-- A remote that answers every request with status 200 and `sampleListBody`. -/
def sampleRemoteList : Remote := fun _ => Exchange.response 200 sampleListBody

/-- A remote that answers every request with status 200 and `sampleGetBody`. -/
def sampleRemoteGet : Remote := fun _ => Exchange.response 200 sampleGetBody

/-- The configuration of the list data source with `include_disabled` set. -/
def sampleListConfig : ApiKeysDataSourceModel :=
  { IncludeDisabled := TfValue.known true, Keys := [] }

/-- A provider configuration whose `api_key` is not yet known. -/
def sampleConfigUnknown : OpenRouterProviderModel :=
  { ApiKey := TfValue.unknown, Endpoint := TfValue.null }

/-- An environment in which no variable is set. -/
def sampleEnvEmpty : String → String := fun _ => ""

/-! ## Properties -/

section Lemmas

variable {α : Type}

theorem TfValue.Equal_iff [DecidableEq α] (a b : TfValue α) : a.Equal b = true ↔ a = b := by
  cases a <;> cases b <;> simp [TfValue.Equal]

theorem TfValue.Equal_eq_false_iff [DecidableEq α] (a b : TfValue α) :
    a.Equal b = false ↔ a ≠ b := by
  cases a <;> cases b <;> simp [TfValue.Equal]

theorem TfValue.IsNull_iff (a : TfValue α) : a.IsNull = true ↔ a = TfValue.null := by
  cases a <;> simp [TfValue.IsNull]

theorem omitemptyPtr_keys (name : String) (enc : α → Json) (o : Option α) :
    (omitemptyPtr name enc o).map Prod.fst = if o.isSome then [name] else [] := by
  cases o <;> simp [omitemptyPtr]

/-- The patch of `Update`, field by field. -/
theorem ApiKeyResource.updateReq_eq (data state : ApiKeyResourceModel) :
    ApiKeyResource.updateReq data state =
      { Name := if data.Name.Equal state.Name then none else some data.Name.ValueString,
        Limit := if data.Limit.Equal state.Limit then none
          else if data.Limit.IsNull then some 0 else some data.Limit.ValueFloat64,
        IsDisabled := if data.IsDisabled.Equal state.IsDisabled then none
          else some data.IsDisabled.ValueBool,
        BYOK := none } := by
  unfold ApiKeyResource.updateReq
  cases data.Name.Equal state.Name <;> cases data.Limit.Equal state.Limit <;>
    cases data.IsDisabled.Equal state.IsDisabled <;> cases data.Limit.IsNull <;> rfl

theorem hasInfix_iff (l sub : List Char) : hasInfix l sub = true ↔ sub <:+: l := by
  induction l with
  | nil => simp [hasInfix, List.isEmpty_iff]
  | cons c cs ih =>
    simp [hasInfix, ih, List.infix_cons_iff]

theorem stringsContains_iff (s substr : String) :
    stringsContains s substr = true ↔ substr.data <:+: s.data :=
  hasInfix_iff _ _

theorem stringsContains_mid (a b sub : String) :
    stringsContains (a ++ sub ++ b) sub = true := by
  rw [stringsContains_iff]
  exact ⟨a.data, b.data, by simp⟩

theorem digitChar_isDigit (d : Nat) (h : d < 10) : (Nat.digitChar d).isDigit = true := by
  interval_cases d <;> decide

theorem toDigitsCore_isDigit (fuel n : Nat) (ds : List Char)
    (h : ∀ c ∈ ds, c.isDigit = true) :
    ∀ c ∈ Nat.toDigitsCore 10 fuel n ds, c.isDigit = true := by
  induction fuel generalizing n ds with
  | zero => simpa [Nat.toDigitsCore] using h
  | succ f ih =>
    have hd : (Nat.digitChar (n % 10)).isDigit = true :=
      digitChar_isDigit _ (Nat.mod_lt _ (by decide))
    have h2 : ∀ c ∈ Nat.digitChar (n % 10) :: ds, c.isDigit = true := by
      intro c hc
      rcases List.mem_cons.mp hc with rfl | hc
      · exact hd
      · exact h c hc
    simp only [Nat.toDigitsCore]
    split
    · exact h2
    · exact ih _ _ h2

/-- The decimal rendering of a positive number consists of digits. -/
theorem sprintfD_isDigit (n : Int) (hn : 0 < n) : ∀ c ∈ (sprintfD n).data, c.isDigit = true := by
  cases n with
  | ofNat m => exact toDigitsCore_isDigit _ _ _ (by simp)
  | negSucc m => exact absurd hn (by simp [Int.negSucc_lt_zero])

theorem escapeChar_digit (c : Char) (h : c.isDigit = true) : escapeChar c = [c] := by
  simp [escapeChar, shouldEscape, Char.isAlphanum, h]

theorem QueryEscape_digits (s : String) (h : ∀ c ∈ s.data, c.isDigit = true) :
    QueryEscape s = s := by
  have key : ∀ l : List Char, (∀ c ∈ l, c.isDigit = true) → l.flatMap escapeChar = l := by
    intro l
    induction l with
    | nil => intro _; rfl
    | cons a as ih =>
      intro hl
      rw [List.flatMap_cons, escapeChar_digit a (hl a (List.mem_cons_self _ _)),
        ih (fun c hc => hl c (List.mem_cons_of_mem _ hc))]
      rfl
  unfold QueryEscape
  rw [key s.data h]

theorem QueryEscape_sprintfD (n : Int) (hn : 0 < n) : QueryEscape (sprintfD n) = sprintfD n :=
  QueryEscape_digits _ (sprintfD_isDigit n hn)

/-- The path of `ListApiKeys` is the one the spec describes. -/
theorem listApiKeysPath_eq_spec (params : Option ListApiKeysRequest) :
    listApiKeysPath params = specListPath params := by
  cases params with
  | none => rfl
  | some p =>
    have e1 : QueryEscape "include_disabled" = "include_disabled" := by decide
    have e2 : QueryEscape "true" = "true" := by decide
    have e3 : QueryEscape "limit" = "limit" := by decide
    have e4 : QueryEscape "offset" = "offset" := by decide
    have s1 : sortKeys ["include_disabled", "offset", "limit"]
        = ["include_disabled", "limit", "offset"] := by decide
    have s2 : sortKeys ["include_disabled", "offset"] = ["include_disabled", "offset"] := by
      decide
    have s3 : sortKeys ["include_disabled", "limit"] = ["include_disabled", "limit"] := by
      decide
    have s4 : sortKeys ["offset", "limit"] = ["limit", "offset"] := by decide
    rcases p with ⟨i, o, l⟩
    by_cases ho : 0 < o <;> by_cases hl : 0 < l <;> cases i <;>
      simp [listApiKeysPath, listApiKeysValues, specListPath, specListQuery, Values.Set,
        Values.Encode, Values.lookupAll, ho, hl, e1, e2, e3, e4, s1, s2, s3, s4, sortKeys,
        insertKey, QueryEscape_sprintfD]

theorem intercalate_go_data (sep acc : String) (l : List String) :
    (String.intercalate.go acc sep l).data
      = acc.data ++ (l.flatMap fun q => sep.data ++ q.data) := by
  induction l generalizing acc with
  | nil => simp [String.intercalate.go]
  | cons a as ih => simp [String.intercalate.go, ih, String.data_append]

theorem intercalate_data (sep q : String) (qs : List String) :
    (sep.intercalate (q :: qs)).data = q.data ++ (qs.flatMap fun r => sep.data ++ r.data) := by
  simp [String.intercalate, intercalate_go_data]

/-- Every element of a joined list occurs in the joined text. -/
theorem infix_intercalate (sep x : String) (qs : List String) (hx : x ∈ qs) :
    x.data <:+: (sep.intercalate qs).data := by
  cases qs with
  | nil => cases hx
  | cons q rest =>
    rw [intercalate_data]
    rcases List.mem_cons.mp hx with rfl | hx
    · exact (List.prefix_append _ _).isInfix
    · obtain ⟨l1, l2, rfl⟩ := List.append_of_mem hx
      refine ⟨q.data ++ (l1.flatMap fun r => sep.data ++ r.data) ++ sep.data,
        l2.flatMap fun r => sep.data ++ r.data, ?_⟩
      simp [List.flatMap_append, List.append_assoc]

/-- Every character of a joined text comes from the separator or an element. -/
theorem mem_intercalate_data (sep : String) (qs : List String) (c : Char)
    (hc : c ∈ (sep.intercalate qs).data) : c ∈ sep.data ∨ ∃ q ∈ qs, c ∈ q.data := by
  cases qs with
  | nil => simp [String.intercalate] at hc
  | cons q rest =>
    rw [intercalate_data] at hc
    rcases List.mem_append.mp hc with h | h
    · exact Or.inr ⟨q, List.mem_cons_self _ _, h⟩
    · obtain ⟨r, hr, hcr⟩ := List.mem_flatMap.mp h
      rcases List.mem_append.mp hcr with h | h
      · exact Or.inl h
      · exact Or.inr ⟨r, List.mem_cons_of_mem _ hr, h⟩

/-- The create request of `Create`, field by field. -/
theorem ApiKeyResource.createReq_eq (data : ApiKeyResourceModel) :
    ApiKeyResource.createReq data =
      { Name := data.Name.ValueString,
        Limit := if data.Limit.IsNull then none else some data.Limit.ValueFloat64,
        LimitMinutes := if data.LimitMinutes.IsNull then none
          else some data.LimitMinutes.ValueInt64 } := by
  unfold ApiKeyResource.createReq
  cases data.Limit.IsNull <;> cases data.LimitMinutes.IsNull <;> rfl

theorem unmarshal_failure_ne_api_error (err tail : String) :
    "failed to unmarshal response: " ++ err ≠ "API error (status " ++ tail := by
  intro h
  have h2 := congrArg (fun s : String => s.data.head?) h
  have e1 : "failed to unmarshal response: ".data
      = 'f' :: "ailed to unmarshal response: ".data := by decide
  have e2 : "API error (status ".data = 'A' :: "PI error (status ".data := by decide
  simp only [String.data_append, e1, e2, List.cons_append, List.head?_cons] at h2
  exact absurd (Option.some.inj h2) (by decide)

theorem stringsContains_eq_false (s sub : String) (ch : Char) (hsub : ch ∈ sub.data)
    (hs : ch ∉ s.data) : stringsContains s sub = false := by
  rw [← Bool.not_eq_true, stringsContains_iff]
  intro h
  exact hs (h.subset hsub)

theorem specListPath_contains (p : ListApiKeysRequest) (x sub : String)
    (hx : x ∈ specListQuery p) (hsub : sub.data <:+: x.data) :
    stringsContains (specListPath (some p)) sub = true := by
  rw [stringsContains_iff]
  cases hq : specListQuery p with
  | nil => rw [hq] at hx; cases hx
  | cons q qs =>
    rw [hq] at hx
    simp only [specListPath, hq, String.data_append]
    exact (hsub.trans (infix_intercalate "&" x (q :: qs) hx)).trans
      (List.suffix_append _ _).isInfix

theorem specListPath_mem (p : ListApiKeysRequest) (c : Char)
    (hc : c ∈ (specListPath (some p)).data) :
    c ∈ "/keys?&".data ∨ ∃ q ∈ specListQuery p, c ∈ q.data := by
  cases hq : specListQuery p with
  | nil =>
    simp only [specListPath, hq] at hc
    left
    have h : "/keys".data ⊆ "/keys?&".data := by decide
    exact h hc
  | cons q qs =>
    simp only [specListPath, hq, String.data_append] at hc
    rcases List.mem_append.mp hc with h | h
    · left
      have h2 : "/keys?".data ⊆ "/keys?&".data := by decide
      exact h2 h
    · rcases mem_intercalate_data _ _ _ h with h | h
      · left
        have h2 : "&".data ⊆ "/keys?&".data := by decide
        exact h2 h
      · right; exact h

/-- A letter that is in none of the parameters present is not in the path. -/
theorem specListPath_not_mem (p : ListApiKeysRequest) (c : Char)
    (h0 : c ∉ "/keys?&=".data) (hd : c.isDigit = false)
    (h1 : p.IncludeDisabled = true → c ∉ "include_disabled=true".data)
    (h2 : 0 < p.Limit → c ∉ "limit".data)
    (h3 : 0 < p.Offset → c ∉ "offset".data) :
    c ∉ (specListPath (some p)).data := by
  intro hc
  have hdig : ∀ n : Int, 0 < n → c ∉ (sprintfD n).data := by
    intro n hn hmem
    rw [sprintfD_isDigit n hn c hmem] at hd
    exact Bool.noConfusion hd
  have heq : c ≠ '=' := by
    intro h; apply h0; rw [h]; decide
  rcases specListPath_mem p c hc with h | ⟨q, hq, hcq⟩
  · apply h0
    have hs : "/keys?&".data ⊆ "/keys?&=".data := by decide
    exact hs h
  · simp only [specListQuery, List.mem_append] at hq
    rcases hq with (hq | hq) | hq
    · by_cases hi : p.IncludeDisabled = true
      · simp [hi] at hq
        rw [hq] at hcq
        exact h1 hi hcq
      · simp [hi] at hq
    · by_cases hl : 0 < p.Limit
      · simp [hl] at hq
        rw [hq, String.data_append] at hcq
        rcases List.mem_append.mp hcq with h | h
        · have hs : "limit=".data = "limit".data ++ ['='] := by decide
          rw [hs] at h
          rcases List.mem_append.mp h with h | h
          · exact h2 hl h
          · exact heq (by simpa using h)
        · exact hdig _ hl h
      · simp [hl] at hq
    · by_cases ho : 0 < p.Offset
      · simp [ho] at hq
        rw [hq, String.data_append] at hcq
        rcases List.mem_append.mp hcq with h | h
        · have hs : "offset=".data = "offset".data ++ ['='] := by decide
          rw [hs] at h
          rcases List.mem_append.mp h with h | h
          · exact h3 ho h
          · exact heq (by simpa using h)
        · exact hdig _ ho h
      · simp [ho] at hq

/-- Filling a slice index by index, in order, gives the list of the images. -/
theorem foldl_set_enumFrom {β γ : Type} (f : β → γ) (rest : List β) (done pad : List γ)
    (hpad : pad.length = rest.length) :
    (rest.enumFrom done.length).foldl (fun keys p => keys.set p.1 (f p.2)) (done ++ pad)
      = done ++ rest.map f := by
  induction rest generalizing done pad with
  | nil =>
    cases pad with
    | nil => simp
    | cons z zs => simp at hpad
  | cons a r ih =>
    cases pad with
    | nil => simp at hpad
    | cons z zs =>
      have hlen : zs.length = r.length := by simpa using hpad
      have hset : (done ++ z :: zs).set done.length (f a) = (done ++ [f a]) ++ zs := by
        rw [List.set_append_right _ _ (Nat.le_refl _)]
        simp
      have hl : (done ++ [f a]).length = done.length + 1 := by simp
      rw [List.enumFrom_cons, List.foldl_cons, hset, ← hl, ih (done ++ [f a]) zs hlen]
      simp

theorem ApiKeysDataSource.keyOf_eq_spec (r : ApiKeyInfo) :
    ApiKeysDataSource.keyOf r = specKeyOf r := by
  unfold ApiKeysDataSource.keyOf specKeyOf
  cases r.Limit <;> cases r.LimitMinutes <;> cases r.CreatedAt <;> rfl

/-- The loop of the list data source maps each record to its key, in order. -/
theorem ApiKeysDataSource.fillKeys_eq_map (apiKeys : List ApiKeyInfo) :
    ApiKeysDataSource.fillKeys apiKeys = apiKeys.map specKeyOf := by
  have h := foldl_set_enumFrom ApiKeysDataSource.keyOf apiKeys []
    (List.replicate apiKeys.length ApiKeyModel.zero) (by simp)
  simp only [List.length_nil, List.nil_append] at h
  unfold ApiKeysDataSource.fillKeys List.enum
  rw [h]
  exact List.map_congr_left (fun r _ => ApiKeysDataSource.keyOf_eq_spec r)

end Lemmas

/-- The request `Update` hands to the remote: a `PATCH` of `/keys/{id}` whose body
is the serialized `updateReq`. -/
theorem ApiKeyResource.Update_request (c : Client) (remote : Remote) (J : JsonLib)
    (data state : ApiKeyResourceModel) :
    ApiKeyResource.Update c remote J data state =
      ApiKeyResource.Update c (fun _ => remote
        { Method := "PATCH", URL := c.baseURL ++ ("/keys/" ++ data.ID.ValueString),
          Authorization := "Bearer " ++ c.apiKey, ContentType := "application/json",
          Body := some (ApiKeyResource.updateReq data state).marshal }) J data state := by
  simp [ApiKeyResource.Update, Client.UpdateApiKey, Client.doRequest]

/-- C1: the patch built by `Update` holds `name`, `limit`, `disabled` exactly for
the fields whose planned value differs from the prior one, never `byok`, and the
members of its serialized body are exactly those fields, in that order. -/
theorem ApiKeyResource.updateReq_fields_iff_differ (data state : ApiKeyResourceModel) :
    ((ApiKeyResource.updateReq data state).Name.isSome = true ↔ data.Name ≠ state.Name) ∧
    ((ApiKeyResource.updateReq data state).Limit.isSome = true ↔ data.Limit ≠ state.Limit) ∧
    ((ApiKeyResource.updateReq data state).IsDisabled.isSome = true
      ↔ data.IsDisabled ≠ state.IsDisabled) ∧
    (ApiKeyResource.updateReq data state).BYOK = none ∧
    (ApiKeyResource.updateReq data state).marshal.keys =
      (if data.Name ≠ state.Name then ["name"] else [])
        ++ (if data.Limit ≠ state.Limit then ["limit"] else [])
        ++ (if data.IsDisabled ≠ state.IsDisabled then ["disabled"] else []) := by
  rw [ApiKeyResource.updateReq_eq]
  have hn := TfValue.Equal_iff data.Name state.Name
  have hl := TfValue.Equal_iff data.Limit state.Limit
  have hd := TfValue.Equal_iff data.IsDisabled state.IsDisabled
  cases h1 : data.Name.Equal state.Name <;> cases h2 : data.Limit.Equal state.Limit <;>
    cases h3 : data.IsDisabled.Equal state.IsDisabled <;> cases h4 : data.Limit.IsNull <;>
    simp [h1, h2, h3] at hn hl hd <;>
    simp [UpdateApiKeyRequest.marshal, Json.keys, omitemptyPtr, hn, hl, hd]

/-- C2: when the prior state has a limit and the plan has none, the patch carries
`limit` with the value 0, and so does its serialized body. -/
theorem ApiKeyResource.updateReq_cleared_limit_is_zero (data state : ApiKeyResourceModel)
    (hstate : state.Limit.IsNull = false) (hplan : data.Limit.IsNull = true) :
    (ApiKeyResource.updateReq data state).Limit = some 0 ∧
    (ApiKeyResource.updateReq data state).marshal.member "limit" = some (Json.num 0) := by
  rw [ApiKeyResource.updateReq_eq]
  have hne : data.Limit.Equal state.Limit = false := by
    rw [TfValue.Equal_eq_false_iff]
    intro h
    rw [h, hstate] at hplan
    exact Bool.noConfusion hplan
  cases h1 : data.Name.Equal state.Name <;>
    cases h3 : data.IsDisabled.Equal state.IsDisabled <;>
    simp [UpdateApiKeyRequest.marshal, Json.member, omitemptyPtr, hne, hplan]

theorem ApiKeyResource.updateReq_cleared_limit_is_zero_witness :
    (ApiKeyResource.updateReq samplePlanNoLimit samplePrior).Limit = some 0 ∧
    (ApiKeyResource.updateReq samplePlanNoLimit samplePrior).marshal.member "limit"
      = some (Json.num 0) :=
  ApiKeyResource.updateReq_cleared_limit_is_zero samplePlanNoLimit samplePrior
    (by decide) (by decide)

/-- C3: when the `GET /keys/{id}` of a read is answered with status 404,
`GetApiKey` fails with the remote error of status 404 and `Read` removes the
resource from the state without any diagnostic. -/
theorem ApiKeyResource.Read_404_removes_resource (c : Client) (remote : Remote) (J : JsonLib)
    (data : ApiKeyResourceModel) (respBody : String)
    (h : remote { Method := "GET", URL := c.baseURL ++ ("/keys/" ++ data.ID.ValueString),
                  Authorization := "Bearer " ++ c.apiKey, ContentType := "application/json",
                  Body := none } = Exchange.response 404 respBody) :
    (∃ msg, c.GetApiKey remote J data.ID.ValueString
        = Except.error ("API error (status 404): " ++ msg)) ∧
    ApiKeyResource.Read c remote J data = { State := none, Diagnostics := [] } := by
  have h404 : sprintfD 404 = "404" := by decide
  have hc : ∀ msg : String,
      stringsContains ("API error (status 404): " ++ msg) "404" = true := by
    intro msg
    have hlit : "API error (status 404): " = "API error (status " ++ "404" ++ "): " := by decide
    rw [hlit, String.append_assoc ("API error (status " ++ "404")]
    exact stringsContains_mid _ _ _
  cases hu : J.unmarshalError respBody with
  | error e =>
    refine ⟨⟨respBody, ?_⟩, ?_⟩
    · simp [Client.GetApiKey, Client.doRequest, h, hu, h404]
    · simp [ApiKeyResource.Read, Client.GetApiKey, Client.doRequest, h, hu, h404, hc]
  | ok e =>
    refine ⟨⟨e.Message, ?_⟩, ?_⟩
    · simp [Client.GetApiKey, Client.doRequest, h, hu, h404]
    · simp [ApiKeyResource.Read, Client.GetApiKey, Client.doRequest, h, hu, h404, hc]

theorem ApiKeyResource.Read_404_removes_resource_witness :
    (∃ msg, sampleClient.GetApiKey sampleRemote404 sampleJson samplePrior.ID.ValueString
        = Except.error ("API error (status 404): " ++ msg)) ∧
    ApiKeyResource.Read sampleClient sampleRemote404 sampleJson samplePrior
      = { State := none, Diagnostics := [] } :=
  ApiKeyResource.Read_404_removes_resource sampleClient sampleRemote404 sampleJson samplePrior
    "\x7b\"message\":\"key not found\"\x7d" rfl

/-- C4, at a failing input: the read is answered with status 500 and the message
`backend returned 404`; `GetApiKey` fails with the remote error of status 500,
and `Read` removes the resource from the state and reports no diagnostic. -/
theorem ApiKeyResource.Read_500_mentioning_404_removes_resource :
    sampleClient.GetApiKey sampleRemote500 sampleJson samplePrior.ID.ValueString
      = Except.error "API error (status 500): backend returned 404" ∧
    ApiKeyResource.Read sampleClient sampleRemote500 sampleJson samplePrior
      = { State := none, Diagnostics := [] } := by
  constructor
  · rfl
  · decide

/-- C5: the path of `ListApiKeys` mentions `include_disabled` exactly when
`IncludeDisabled` is set; when it is set, the path starts with
`/keys?include_disabled=true`, followed by nothing or by `&` and the other
parameters. -/
theorem listApiKeysPath_include_disabled (Offset Limit : Int) :
    stringsContains (listApiKeysPath (some ⟨true, Offset, Limit⟩)) "include_disabled" = true ∧
    (∃ rest, listApiKeysPath (some ⟨true, Offset, Limit⟩)
        = "/keys?include_disabled=true" ++ rest ∧ (rest = "" ∨ ∃ r, rest = "&" ++ r)) ∧
    stringsContains (listApiKeysPath (some ⟨false, Offset, Limit⟩)) "include_disabled"
      = false := by
  refine ⟨?_, ?_, ?_⟩
  · rw [listApiKeysPath_eq_spec]
    refine specListPath_contains _ "include_disabled=true" _ (by simp [specListQuery]) ?_
    exact ⟨[], "=true".data, by decide⟩
  · rw [listApiKeysPath_eq_spec]
    have h1 : "/keys?include_disabled=true" = "/keys?" ++ "include_disabled=true" := by
      decide
    have h2 : "include_disabled=true&" = "include_disabled=true" ++ "&" := by decide
    by_cases ho : 0 < Offset <;> by_cases hl : 0 < Limit
    · refine ⟨"&" ++ ("limit=" ++ sprintfD Limit ++ "&" ++ ("offset=" ++ sprintfD Offset)),
        ?_, Or.inr ⟨_, rfl⟩⟩
      simp [specListPath, specListQuery, ho, hl, String.intercalate, String.intercalate.go,
        String.append_assoc]
      rw [h1, h2]
      simp only [String.append_assoc]
    · refine ⟨"&" ++ ("offset=" ++ sprintfD Offset), ?_, Or.inr ⟨_, rfl⟩⟩
      simp [specListPath, specListQuery, ho, hl, String.intercalate, String.intercalate.go,
        String.append_assoc]
      rw [h1, h2]
      simp only [String.append_assoc]
    · refine ⟨"&" ++ ("limit=" ++ sprintfD Limit), ?_, Or.inr ⟨_, rfl⟩⟩
      simp [specListPath, specListQuery, ho, hl, String.intercalate, String.intercalate.go,
        String.append_assoc]
      rw [h1, h2]
      simp only [String.append_assoc]
    · exact ⟨"", by simp [specListPath, specListQuery, ho, hl, String.intercalate,
          String.intercalate.go], Or.inl rfl⟩
  · rw [listApiKeysPath_eq_spec]
    refine stringsContains_eq_false _ _ '_' (by decide) ?_
    exact specListPath_not_mem _ '_' (by decide) (by decide) (by simp)
      (fun _ => by decide) (fun _ => by decide)

/-- C6: with no request, and with a request whose three fields are zero or false,
the path of `ListApiKeys` is exactly `/keys`; for every request the path is
`/keys` followed by the parameters the spec lists, `limit` and `offset` each in
decimal, and it mentions `offset` exactly when `Offset > 0` and `limit` exactly
when `Limit > 0`. -/
theorem listApiKeysPath_offset_limit (p : ListApiKeysRequest) :
    listApiKeysPath none = "/keys" ∧
    listApiKeysPath (some ⟨false, 0, 0⟩) = "/keys" ∧
    listApiKeysPath (some p) = specListPath (some p) ∧
    stringsContains (listApiKeysPath (some p)) "offset" = decide (0 < p.Offset) ∧
    stringsContains (listApiKeysPath (some p)) "limit" = decide (0 < p.Limit) := by
  refine ⟨rfl, by decide, listApiKeysPath_eq_spec _, ?_, ?_⟩
  · rw [listApiKeysPath_eq_spec]
    by_cases ho : 0 < p.Offset
    · rw [decide_eq_true ho]
      refine specListPath_contains p ("offset=" ++ sprintfD p.Offset) _
        (by simp [specListQuery, ho]) ?_
      exact ⟨[], "=".data ++ (sprintfD p.Offset).data, by
        rw [String.data_append]
        have hs : "offset=".data = "offset".data ++ "=".data := by decide
        rw [hs]; simp⟩
    · rw [decide_eq_false ho]
      refine stringsContains_eq_false _ _ 'o' (by decide) ?_
      exact specListPath_not_mem _ 'o' (by decide) (by decide) (fun _ => by decide)
        (fun _ => by decide) (fun h => absurd h ho)
  · rw [listApiKeysPath_eq_spec]
    by_cases hl : 0 < p.Limit
    · rw [decide_eq_true hl]
      refine specListPath_contains p ("limit=" ++ sprintfD p.Limit) _
        (by simp [specListQuery, hl]) ?_
      exact ⟨[], "=".data ++ (sprintfD p.Limit).data, by
        rw [String.data_append]
        have hs : "limit=".data = "limit".data ++ "=".data := by decide
        rw [hs]; simp⟩
    · rw [decide_eq_false hl]
      refine stringsContains_eq_false _ _ 'm' (by decide) ?_
      exact specListPath_not_mem _ 'm' (by decide) (by decide) (fun _ => by decide)
        (fun h => absurd h hl) (fun _ => by decide)

/-- C7: when a response is read, `doRequest` fails with an `API error` exactly when
the status code is 400 or more; the error text then carries the status code in
decimal and, as message, the `Message` of the decoded error envelope when the
body decodes as one and the raw body otherwise. -/
theorem Client.doRequest_remote_error {α : Type} (c : Client) (remote : Remote)
    (unmarshalErr : String → Except GoError ErrorResponse)
    (unmarshal : String → Except GoError α) (method path : String) (body : Option Json)
    (result : Option α) (StatusCode : Int) (respBody : String)
    (h : remote { Method := method, URL := c.baseURL ++ path,
                  Authorization := "Bearer " ++ c.apiKey, ContentType := "application/json",
                  Body := body } = Exchange.response StatusCode respBody) :
    ((∃ tail, c.doRequest remote unmarshalErr unmarshal method path body result
        = Except.error ("API error (status " ++ tail)) ↔ 400 ≤ StatusCode) ∧
    (400 ≤ StatusCode →
      c.doRequest remote unmarshalErr unmarshal method path body result
        = Except.error ("API error (status " ++ sprintfD StatusCode ++ "): " ++
            (match unmarshalErr respBody with
              | Except.ok errResp => errResp.Message
              | Except.error _ => respBody))) := by
  have hge : 400 ≤ StatusCode →
      c.doRequest remote unmarshalErr unmarshal method path body result
        = Except.error ("API error (status " ++ sprintfD StatusCode ++ "): " ++
            (match unmarshalErr respBody with
              | Except.ok errResp => errResp.Message
              | Except.error _ => respBody)) := by
    intro hs
    cases hu : unmarshalErr respBody <;> simp [Client.doRequest, h, hs, hu]
  refine ⟨⟨?_, ?_⟩, hge⟩
  · rintro ⟨tail, ht⟩
    by_contra hs
    cases result with
    | none => simp [Client.doRequest, h, hs] at ht
    | some r =>
      by_cases hb : respBody.utf8ByteSize > 0
      · cases hu : unmarshal respBody with
        | error e =>
          simp [Client.doRequest, h, hs, hb, hu] at ht
          exact unmarshal_failure_ne_api_error _ _ ht
        | ok v => simp [Client.doRequest, h, hs, hb, hu] at ht
      · simp [Client.doRequest, h, hs, hb] at ht
  · intro hs
    exact ⟨sprintfD StatusCode ++ "): " ++
        (match unmarshalErr respBody with
          | Except.ok errResp => errResp.Message
          | Except.error _ => respBody), by
      rw [hge hs]; simp only [String.append_assoc]⟩

theorem Client.doRequest_remote_error_witness :
    ((∃ tail, sampleClient.doRequest sampleRemote500 sampleJson.unmarshalError
        sampleJson.unmarshalGet "GET" "/keys/k1" none (some ⟨ApiKeyInfo.zero⟩)
        = Except.error ("API error (status " ++ tail)) ↔ (400 : Int) ≤ 500) ∧
    ((400 : Int) ≤ 500 →
      sampleClient.doRequest sampleRemote500 sampleJson.unmarshalError
        sampleJson.unmarshalGet "GET" "/keys/k1" none (some ⟨ApiKeyInfo.zero⟩)
        = Except.error ("API error (status " ++ sprintfD 500 ++ "): " ++
            (match sampleJson.unmarshalError "\x7b\"message\":\"backend returned 404\"\x7d" with
              | Except.ok errResp => errResp.Message
              | Except.error _ => "\x7b\"message\":\"backend returned 404\"\x7d"))) :=
  Client.doRequest_remote_error sampleClient sampleRemote500 sampleJson.unmarshalError
    sampleJson.unmarshalGet "GET" "/keys/k1" none (some ⟨ApiKeyInfo.zero⟩) 500
    "\x7b\"message\":\"backend returned 404\"\x7d" rfl

/-- C8, at a failing input: the create is answered with the record `k9` under
`data` and the secret `sk-or-v1-new` under `key`; `CreateApiKey` returns the
record alone, whose `Key` is empty, and the state stored by `Create` has the id,
usage and disabled flag of the record but an empty `key`. -/
theorem ApiKeyResource.Create_drops_secret :
    sampleJson.unmarshalCreate sampleCreateBody
      = Except.ok { Data := { ApiKeyInfo.zero with ID := "k9", Name := "ci" },
                    Key := "sk-or-v1-new" } ∧
    sampleClient.CreateApiKey sampleRemoteCreated sampleJson
        (ApiKeyResource.createReq samplePlanNew)
      = Except.ok { ApiKeyInfo.zero with ID := "k9", Name := "ci" } ∧
    ApiKeyResource.Create sampleClient sampleRemoteCreated sampleJson samplePlanNew
      = { State := some { samplePlanNew with
            ID := TfValue.known "k9", Key := TfValue.known "",
            Usage := TfValue.known 0, IsDisabled := TfValue.known false },
          Diagnostics := [] } := by
  refine ⟨rfl, rfl, ?_⟩
  decide

/-- The request `Create` hands to the remote: a `POST` of `/keys` whose body is
the serialized `createReq`. -/
theorem ApiKeyResource.Create_request (c : Client) (remote : Remote) (J : JsonLib)
    (data : ApiKeyResourceModel) :
    ApiKeyResource.Create c remote J data =
      ApiKeyResource.Create c (fun _ => remote
        { Method := "POST", URL := c.baseURL ++ "/keys",
          Authorization := "Bearer " ++ c.apiKey, ContentType := "application/json",
          Body := some (ApiKeyResource.createReq data).marshal }) J data := by
  simp [ApiKeyResource.Create, Client.CreateApiKey, Client.doRequest]

/-- C9: the create request built by `Create` has the planned name, carries `limit`
exactly when the planned limit is not null and `limit_minutes` exactly when the
planned limit_minutes is not null, each with the planned value when it is known;
the members of its serialized body are `name` and those fields, nothing else,
and `name` holds the planned name. -/
theorem ApiKeyResource.createReq_fields (data : ApiKeyResourceModel) :
    (ApiKeyResource.createReq data).Name = data.Name.ValueString ∧
    ((ApiKeyResource.createReq data).Limit.isSome = true ↔ data.Limit ≠ TfValue.null) ∧
    ((ApiKeyResource.createReq data).LimitMinutes.isSome = true
      ↔ data.LimitMinutes ≠ TfValue.null) ∧
    (∀ v, (ApiKeyResource.createReq { data with Limit := TfValue.known v }).Limit = some v) ∧
    (∀ m, (ApiKeyResource.createReq { data with LimitMinutes := TfValue.known m }).LimitMinutes
      = some m) ∧
    (ApiKeyResource.createReq data).marshal.keys =
      ["name"] ++ (if data.Limit ≠ TfValue.null then ["limit"] else [])
        ++ (if data.LimitMinutes ≠ TfValue.null then ["limit_minutes"] else []) ∧
    (ApiKeyResource.createReq data).marshal.member "name"
      = some (Json.str data.Name.ValueString) := by
  have hl := TfValue.IsNull_iff data.Limit
  have hm := TfValue.IsNull_iff data.LimitMinutes
  refine ⟨?_, ?_, ?_, ?_, ?_, ?_, ?_⟩
  · rw [ApiKeyResource.createReq_eq]
  · rw [ApiKeyResource.createReq_eq]
    cases h1 : data.Limit.IsNull <;> simp [h1] at hl <;> simp [hl]
  · rw [ApiKeyResource.createReq_eq]
    cases h2 : data.LimitMinutes.IsNull <;> simp [h2] at hm <;> simp [hm]
  · intro v; rw [ApiKeyResource.createReq_eq]; rfl
  · intro m; rw [ApiKeyResource.createReq_eq]; rfl
  · rw [ApiKeyResource.createReq_eq]
    cases h1 : data.Limit.IsNull <;> cases h2 : data.LimitMinutes.IsNull <;>
      simp [h1, h2] at hl hm <;>
      simp [CreateApiKeyRequest.marshal, Json.keys, omitemptyPtr, hl, hm]
  · rw [ApiKeyResource.createReq_eq]
    simp [CreateApiKeyRequest.marshal, Json.member]

/-- C10: when `UpdateApiKey` succeeds, the state written by `Update` is the plan
with `usage` replaced by the usage of the returned record; id, key, created_at
and every other attribute are those of the plan, and no diagnostic is added. -/
theorem ApiKeyResource.Update_success_state (c : Client) (remote : Remote) (J : JsonLib)
    (data state : ApiKeyResourceModel) (apiKey : ApiKeyInfo)
    (h : c.UpdateApiKey remote J data.ID.ValueString (ApiKeyResource.updateReq data state)
      = Except.ok apiKey) :
    ApiKeyResource.Update c remote J data state
      = { State := some
            { ID := data.ID, Key := data.Key, Name := data.Name, Limit := data.Limit,
              LimitMinutes := data.LimitMinutes, IsDisabled := data.IsDisabled,
              Usage := TfValue.known apiKey.Usage, CreatedAt := data.CreatedAt },
          Diagnostics := [] } := by
  simp [ApiKeyResource.Update, h]

theorem ApiKeyResource.Update_success_state_witness :
    ApiKeyResource.Update sampleClient sampleRemoteUpdated sampleJson samplePlanRenamed
        samplePrior
      = { State := some
            { ID := samplePlanRenamed.ID, Key := samplePlanRenamed.Key,
              Name := samplePlanRenamed.Name, Limit := samplePlanRenamed.Limit,
              LimitMinutes := samplePlanRenamed.LimitMinutes,
              IsDisabled := samplePlanRenamed.IsDisabled,
              Usage := TfValue.known 3, CreatedAt := samplePlanRenamed.CreatedAt },
          Diagnostics := [] } :=
  ApiKeyResource.Update_success_state sampleClient sampleRemoteUpdated sampleJson
    samplePlanRenamed samplePrior
    { ApiKeyInfo.zero with ID := "k1", Name := "ci-renamed", Usage := 3 } rfl

/-- C11: when the `PATCH` of an update, or the `DELETE` of a delete, is answered
with status 404, `Update` and `Delete` each add a `Client Error` diagnostic
carrying the remote error of status 404 and leave the prior state in place. -/
theorem ApiKeyResource.Update_Delete_404_hard_error (c : Client) (remote : Remote)
    (J : JsonLib) (data state : ApiKeyResourceModel) (bodyU bodyD : String)
    (hU : remote { Method := "PATCH", URL := c.baseURL ++ ("/keys/" ++ data.ID.ValueString),
                   Authorization := "Bearer " ++ c.apiKey, ContentType := "application/json",
                   Body := some (ApiKeyResource.updateReq data state).marshal }
      = Exchange.response 404 bodyU)
    (hD : remote { Method := "DELETE", URL := c.baseURL ++ ("/keys/" ++ state.ID.ValueString),
                   Authorization := "Bearer " ++ c.apiKey, ContentType := "application/json",
                   Body := none }
      = Exchange.response 404 bodyD) :
    (∃ msg, ApiKeyResource.Update c remote J data state
      = { State := some state,
          Diagnostics := [⟨"Client Error",
            "Unable to update API key, got error: " ++ ("API error (status 404): " ++ msg)⟩] }) ∧
    (∃ msg, ApiKeyResource.Delete c remote J state
      = { State := some state,
          Diagnostics := [⟨"Client Error",
            "Unable to delete API key, got error: " ++ ("API error (status 404): " ++ msg)⟩] })
    := by
  have h404 : sprintfD 404 = "404" := by decide
  constructor
  · cases hu : J.unmarshalError bodyU with
    | error e =>
      exact ⟨bodyU, by simp [ApiKeyResource.Update, Client.UpdateApiKey, Client.doRequest,
        hU, hu, h404]⟩
    | ok e =>
      exact ⟨e.Message, by simp [ApiKeyResource.Update, Client.UpdateApiKey,
        Client.doRequest, hU, hu, h404]⟩
  · cases hu : J.unmarshalError bodyD with
    | error e =>
      exact ⟨bodyD, by simp [ApiKeyResource.Delete, Client.DeleteApiKey, Client.doRequest,
        hD, hu, h404]⟩
    | ok e =>
      exact ⟨e.Message, by simp [ApiKeyResource.Delete, Client.DeleteApiKey,
        Client.doRequest, hD, hu, h404]⟩

theorem ApiKeyResource.Update_Delete_404_hard_error_witness :
    (∃ msg, ApiKeyResource.Update sampleClient sampleRemote404 sampleJson samplePlanRenamed
        samplePrior
      = { State := some samplePrior,
          Diagnostics := [⟨"Client Error",
            "Unable to update API key, got error: " ++ ("API error (status 404): " ++ msg)⟩] }) ∧
    (∃ msg, ApiKeyResource.Delete sampleClient sampleRemote404 sampleJson samplePrior
      = { State := some samplePrior,
          Diagnostics := [⟨"Client Error",
            "Unable to delete API key, got error: " ++ ("API error (status 404): " ++ msg)⟩] })
    :=
  ApiKeyResource.Update_Delete_404_hard_error sampleClient sampleRemote404 sampleJson
    samplePlanRenamed samplePrior "\x7b\"message\":\"key not found\"\x7d"
    "\x7b\"message\":\"key not found\"\x7d" rfl rfl

/-- C12, as stated, fails: the plan `samplePlanMinutes` differs from the prior
state `samplePrior` in `limit_minutes` (60 against null), and the patch built by
`Update` is empty, with no `limit_minutes` in its serialized body. -/
theorem ApiKeyResource.updateReq_omits_changed_limit_minutes :
    samplePlanMinutes.LimitMinutes ≠ samplePrior.LimitMinutes ∧
    samplePlanMinutes.LimitMinutes = TfValue.known 60 ∧
    ApiKeyResource.updateReq samplePlanMinutes samplePrior
      = { Name := none, Limit := none, IsDisabled := none, BYOK := none } ∧
    (ApiKeyResource.updateReq samplePlanMinutes samplePrior).marshal.keys = [] := by
  refine ⟨by decide, rfl, by decide, by decide⟩

/-- C12, amended: the patch built by `Update` never has a `limit_minutes` member
and does not depend on the planned `limit_minutes`: replacing it by the prior
value gives the same patch. -/
theorem ApiKeyResource.updateReq_ignores_limit_minutes (data state : ApiKeyResourceModel) :
    "limit_minutes" ∉ (ApiKeyResource.updateReq data state).marshal.keys ∧
    ApiKeyResource.updateReq data state
      = ApiKeyResource.updateReq { data with LimitMinutes := state.LimitMinutes } state := by
  constructor
  · rw [ApiKeyResource.updateReq_eq]
    cases data.Name.Equal state.Name <;> cases data.Limit.Equal state.Limit <;>
      cases data.IsDisabled.Equal state.IsDisabled <;> cases data.Limit.IsNull <;>
      simp [UpdateApiKeyRequest.marshal, Json.keys, omitemptyPtr]
  · rw [ApiKeyResource.updateReq_eq, ApiKeyResource.updateReq_eq]

/-- C13: when `ListApiKeys` returns a page, the state stored by the list data
source keeps the configuration and has as `keys` the page mapped record by
record: the same length, and at every index the key of the record at that index,
with its id, name, is_provisioner, usage and is_disabled, and with limit,
limit_minutes and created_at null exactly when the record has none. -/
theorem ApiKeysDataSource.Read_keys_are_page (c : Client) (remote : Remote) (J : JsonLib)
    (data : ApiKeysDataSourceModel) (apiKeys : List ApiKeyInfo)
    (h : c.ListApiKeys remote J
        (some { IncludeDisabled := data.IncludeDisabled.ValueBool, Offset := 0, Limit := 0 })
      = Except.ok apiKeys) :
    ∃ keys : List ApiKeyModel,
      ApiKeysDataSource.Read c remote J data
        = { State := some { IncludeDisabled := data.IncludeDisabled, Keys := keys },
            Diagnostics := [] } ∧
      keys = apiKeys.map specKeyOf ∧
      keys.length = apiKeys.length ∧
      ∀ i : Nat, keys[i]? = (apiKeys[i]?).map specKeyOf := by
  refine ⟨apiKeys.map specKeyOf, ?_, rfl, by simp, fun i => by simp⟩
  simp [ApiKeysDataSource.Read, h, ApiKeysDataSource.fillKeys_eq_map]

set_option maxRecDepth 8192 in
theorem ApiKeysDataSource.Read_keys_are_page_witness :
    ∃ keys : List ApiKeyModel,
      ApiKeysDataSource.Read sampleClient sampleRemoteList sampleJsonRead sampleListConfig
        = { State := some { IncludeDisabled := sampleListConfig.IncludeDisabled, Keys := keys },
            Diagnostics := [] } ∧
      keys = samplePage.map specKeyOf ∧
      keys.length = samplePage.length ∧
      ∀ i : Nat, keys[i]? = (samplePage[i]?).map specKeyOf :=
  ApiKeysDataSource.Read_keys_are_page sampleClient sampleRemoteList sampleJsonRead
    sampleListConfig samplePage rfl

/-- C14, as stated, fails: with an `api_key` that is unknown (hence not null) and
an empty environment, the credential settled on is empty, yet `Configure` reports
the single error `Unknown OpenRouter API Key`, not `Missing OpenRouter API Key`,
and constructs no client. -/
theorem OpenRouterProvider.Configure_unknown_key_reports_unknown :
    sampleConfigUnknown.ApiKey.IsNull = false ∧
    OpenRouterProvider.resolveApiKey sampleConfigUnknown sampleEnvEmpty = "" ∧
    (OpenRouterProvider.Configure sampleConfigUnknown sampleEnvEmpty).Diagnostics.map
        (fun d => d.Summary) = ["Unknown OpenRouter API Key"] ∧
    (OpenRouterProvider.Configure sampleConfigUnknown sampleEnvEmpty).DataSourceData = none ∧
    (OpenRouterProvider.Configure sampleConfigUnknown sampleEnvEmpty).ResourceData = none := by
  refine ⟨by decide, by decide, by decide, by decide, by decide⟩

/-- C14, amended: the credential settled on is the configured `api_key` when it is
not null and the value of `OPENROUTER_API_KEY` otherwise. When `api_key` is
unknown, `Configure` reports `Unknown OpenRouter API Key` and constructs no
client. Otherwise, when the credential is empty it reports
`Missing OpenRouter API Key` and constructs no client, and when it is not empty
it reports nothing and hands one client, built from the credential and the
endpoint, to data sources and resources. -/
theorem OpenRouterProvider.Configure_cases (config : OpenRouterProviderModel)
    (getenv : String → String) :
    OpenRouterProvider.resolveApiKey config getenv
      = (if config.ApiKey = TfValue.null then getenv "OPENROUTER_API_KEY"
         else config.ApiKey.ValueString) ∧
    OpenRouterProvider.Configure config getenv
      = (if config.ApiKey = TfValue.unknown then
           { Diagnostics := [unknownApiKeyError], DataSourceData := none, ResourceData := none }
         else if OpenRouterProvider.resolveApiKey config getenv = "" then
           { Diagnostics := [missingApiKeyError], DataSourceData := none, ResourceData := none }
         else
           { Diagnostics := [],
             DataSourceData := some (NewClient (OpenRouterProvider.resolveApiKey config getenv)
               (some (OpenRouterProvider.resolveEndpoint config))),
             ResourceData := some (NewClient (OpenRouterProvider.resolveApiKey config getenv)
               (some (OpenRouterProvider.resolveEndpoint config))) }) := by
  constructor
  · cases h : config.ApiKey <;> simp [OpenRouterProvider.resolveApiKey, TfValue.IsNull, h]
  · cases h : config.ApiKey with
    | unknown => simp [OpenRouterProvider.Configure, TfValue.IsUnknown, h]
    | null =>
      by_cases he : OpenRouterProvider.resolveApiKey config getenv = "" <;>
        simp [OpenRouterProvider.Configure, TfValue.IsUnknown, h, he]
    | known v =>
      by_cases he : OpenRouterProvider.resolveApiKey config getenv = "" <;>
        simp [OpenRouterProvider.Configure, TfValue.IsUnknown, h, he]

/-- C15: when `GetApiKey` returns a record, the state written by `Read` has the
name, usage and disabled flag of the record, its limit and limit_minutes when
present and null when absent, the id and the key of the prior state, and as
created_at the formatted creation time of the record when it has one and the
prior value otherwise; no diagnostic is added. -/
theorem ApiKeyResource.Read_success_state (c : Client) (remote : Remote) (J : JsonLib)
    (data : ApiKeyResourceModel) (apiKey : ApiKeyInfo)
    (h : c.GetApiKey remote J data.ID.ValueString = Except.ok apiKey) :
    ApiKeyResource.Read c remote J data
      = { State := some
            { ID := data.ID, Key := data.Key,
              Name := TfValue.known apiKey.Name,
              Limit := (match apiKey.Limit with
                | some l => TfValue.known l
                | none => TfValue.null),
              LimitMinutes := (match apiKey.LimitMinutes with
                | some m => TfValue.known m
                | none => TfValue.null),
              IsDisabled := TfValue.known apiKey.IsDisabled,
              Usage := TfValue.known apiKey.Usage,
              CreatedAt := (match apiKey.CreatedAt with
                | some t => TfValue.known t.Format
                | none => data.CreatedAt) },
          Diagnostics := [] } := by
  simp only [ApiKeyResource.Read, h]
  cases apiKey.Limit <;> cases apiKey.LimitMinutes <;> cases apiKey.CreatedAt <;> rfl

set_option maxRecDepth 8192 in
theorem ApiKeyResource.Read_success_state_witness :
    ApiKeyResource.Read sampleClient sampleRemoteGet sampleJsonRead samplePrior
      = { State := some
            { ID := samplePrior.ID, Key := samplePrior.Key,
              Name := TfValue.known sampleRecord.Name,
              Limit := (match sampleRecord.Limit with
                | some l => TfValue.known l
                | none => TfValue.null),
              LimitMinutes := (match sampleRecord.LimitMinutes with
                | some m => TfValue.known m
                | none => TfValue.null),
              IsDisabled := TfValue.known sampleRecord.IsDisabled,
              Usage := TfValue.known sampleRecord.Usage,
              CreatedAt := (match sampleRecord.CreatedAt with
                | some t => TfValue.known t.Format
                | none => samplePrior.CreatedAt) },
          Diagnostics := [] } :=
  ApiKeyResource.Read_success_state sampleClient sampleRemoteGet sampleJsonRead samplePrior
    sampleRecord rfl

end OpenRouter
